import Mathlib

/-!
# Verification of the Atenea assistant backend

Shallow embedding of the retrieval-augmented prompt assembly and relay
pipeline of `server.js` (Express backend; the Next.js route
`pages/api/chat.js` implements the same buffered-relay error taxonomy),
together with theorems settling the specified properties.

Modelling conventions:
* JavaScript numbers are modelled as real numbers (`ℝ`); array elements
  that may be holes / `undefined` are `Option ℝ` with `none` for absent.
* Strings are Lean `String`s; `String.length` counts characters where JS
  counts UTF-16 units, and `String.trim` strips ASCII whitespace — the
  difference is irrelevant to every property below.
* Every external HTTP call is represented by the outcome the relay can
  observe (an inductive of network error / non-success status / parsed
  body), and each handler is a total function from the request body and
  those outcomes to the response it writes plus the ordered trace of
  external calls it issues.  Totality of these functions is the model of
  "the server does not crash": every exception in the source is caught
  inside the handler.
-/

namespace Atenea

/-- A JavaScript value as it may appear in a parsed JSON request body
(e.g. `body.message`).  Numbers are modelled as integers here: only their
truthiness and string coercion matter to any property below. -/
inductive JSVal where
  | undef
  | null
  | bool (b : Bool)
  | num (n : Int)
  | str (s : String)
deriving DecidableEq

/-- JS truthiness (`!!v`): `undefined`, `null`, `false`, `0` and the
empty string are falsy, everything else is truthy. -/
def JSVal.truthy : JSVal → Bool
  | .undef => false
  | .null => false
  | .bool b => b
  | .num n => n != 0
  | .str s => s != ""

/-- JS string coercion `v.toString()` for the values above. -/
def JSVal.jsToString : JSVal → String
  | .undef => "undefined"
  | .null => "null"
  | .bool true => "true"
  | .bool false => "false"
  | .num n => toString n
  | .str s => s

/-- The JS test `typeof v === "string"`. -/
def JSVal.isString : JSVal → Bool
  | .str _ => true
  | _ => false

/-- The coercion `(body.message || "").toString()` (server.js line 178 / 251): a falsy
`message` is replaced by the empty string, anything else is coerced to a
string. -/
def coerceMessage (m : JSVal) : String :=
  if m.truthy then m.jsToString else ""

/-- JS `String.prototype.trim`, modelled character-wise: strip leading
and trailing whitespace.  (Lean's own `String.trim` is extensionally the
same on the strings involved, but is defined by well-founded recursion on
byte positions, which blocks concrete evaluation.) -/
def jsTrim (s : String) : String :=
  ((s.toList.dropWhile Char.isWhitespace).reverse.dropWhile Char.isWhitespace).reverse.asString

/-! ## Similarity engine (server.js lines 92–104) -/

/-- The read `(x || 0)` applied to an array element that is either a number or
absent (`undefined`): an absent element and a zero element both read as
`0`. -/
def jsNum (x : Option ℝ) : ℝ := x.getD 0

/-- The function `dot(a, b)`: `for (let i = 0; i < a.length; i++) s += (a[i] || 0) * (b[i] || 0)`.
The recursion peels one index at a time; once `b` is exhausted, `b[i]`
reads `undefined`, i.e. `(b[i] || 0) = 0`. -/
noncomputable def dot : List (Option ℝ) → List (Option ℝ) → ℝ
  | [], _ => 0
  | x :: xs, [] => jsNum x * 0 + dot xs []
  | x :: xs, y :: ys => jsNum x * jsNum y + dot xs ys

/-- The function `norm(a) = Math.sqrt(dot(a, a))`. -/
noncomputable def norm (a : List (Option ℝ)) : ℝ := Real.sqrt (dot a a)

/-- The function `cosineSim(a, b)`: `n = norm(a) * norm(b); if (n === 0) return 0;
return dot(a, b) / n;`. -/
noncomputable def cosineSim (a b : List (Option ℝ)) : ℝ :=
  if norm a * norm b = 0 then 0 else dot a b / (norm a * norm b)

/-! ## RAG corpus and ranking (server.js lines 67–82 and 198–207) -/

/-- A corpus entry as used by the ranking block of `/api/chat`:
`{ id, text, embedding }` with the fields the ranking reads present. -/
structure RagDoc where
  id : JSVal
  text : String
  embedding : List (Option ℝ)

/-- The record spread of `v` plus `sim: cosineSim(qemb, v.embedding)` with, in addition,
`idx` recording the original corpus position of the entry.  `idx` exists
only in the model, to let stability of the sort be stated. -/
structure RankedDoc extends RagDoc where
  idx : Nat
  sim : ℝ

/-- The mapping `RAG_VECTORS.map(v => (spread of v plus sim: cosineSim(qemb, v.embedding)))`
(server.js line 201), tagged with original positions. -/
noncomputable def sims (corpus : List RagDoc) (qemb : List (Option ℝ)) : List RankedDoc :=
  corpus.enum.map fun p => ⟨p.2, p.1, cosineSim qemb p.2.embedding⟩

/-- The order realised by `sims.sort((a, b) => b.sim - a.sim)` (server.js
line 202).  `Array.prototype.sort` is stable (ES2019), and a stable sort
by that comparator is exactly the sort by this lexicographic order:
greater similarity first, equal similarities kept in original order. -/
def rankLE (x y : RankedDoc) : Prop :=
  y.sim < x.sim ∨ (x.sim = y.sim ∧ x.idx ≤ y.idx)

noncomputable instance : DecidableRel rankLE := fun _ _ => inferInstanceAs (Decidable (_ ∨ _))

instance : IsTotal RankedDoc rankLE where
  total x y := by
    rcases lt_trichotomy x.sim y.sim with h | h | h
    · rcases Nat.le_total y.idx x.idx with hi | hi
      · exact Or.inr (Or.inl h)
      · exact Or.inr (Or.inl h)
    · rcases Nat.le_total x.idx y.idx with hi | hi
      · exact Or.inl (Or.inr ⟨h, hi⟩)
      · exact Or.inr (Or.inr ⟨h.symm, hi⟩)
    · exact Or.inl (Or.inl h)

instance : IsTrans RankedDoc rankLE where
  trans x y z hxy hyz := by
    rcases hxy with h1 | ⟨h1, i1⟩
    · rcases hyz with h2 | ⟨h2, _⟩
      · exact Or.inl (h2.trans h1)
      · exact Or.inl (h2 ▸ h1)
    · rcases hyz with h2 | ⟨h2, i2⟩
      · exact Or.inl (h1 ▸ h2)
      · exact Or.inr ⟨h1.trans h2, i1.trans i2⟩

/-- The ranking step: compute a similarity for every corpus entry, then
stable-sort descending by similarity. -/
noncomputable def rank (corpus : List RagDoc) (qemb : List (Option ℝ)) : List RankedDoc :=
  List.insertionSort rankLE (sims corpus qemb)

/-- The selection `topDocs = sims.slice(0, RAG_TOP_K)` after the in-place sort
(server.js line 203): the top-K prefix of the ranked sequence. -/
noncomputable def topDocsOf (corpus : List RagDoc) (qemb : List (Option ℝ)) (k : Nat) :
    List RankedDoc :=
  (rank corpus qemb).take k

/-! ## Startup load of the corpus (server.js lines 67–82) -/

/-- One record of the parsed `vectors.json` array: each field may be
absent (`undefined`); nothing constrains the fields' presence. -/
structure RawRecord where
  id : Option JSVal
  text : Option String
  embedding : Option (List (Option ℝ))

/-- What the startup load can encounter: `readFileSync` throwing,
`JSON.parse` throwing, a parse result that is not an array, or an array
of records. -/
inductive VectorsSource where
  | unreadable
  | unparseable
  | notArray
  | array (records : List RawRecord)

/-- The startup load of `RAG_VECTORS`: starts empty; when RAG is enabled
the file is read and parsed inside try/catch; an array is mapped
record-wise onto `{ id: v.id, text: v.text, embedding: v.embedding }`
with no per-record validation; a read/parse failure or a non-array shape
leaves the store empty (a warning is logged; the function is total — no
failure escapes, the server keeps running). -/
def loadRagVectors (ragEnabled : Bool) (src : VectorsSource) : List RawRecord :=
  if !ragEnabled then []
  else
    match src with
    | .unreadable => []
    | .unparseable => []
    | .notArray => []
    | .array records => records.map fun v => ⟨v.id, v.text, v.embedding⟩

/-! ## Validation (server.js lines 85–90) -/

/-- The validator `validateMessageText(text)`: returns the error message, or `none`
when the text is acceptable. -/
def validateMessageText (text : JSVal) : Option String :=
  if !text.truthy || !text.isString then some "El mensaje está vacío o no es válido."
  else if jsTrim text.jsToString = "" then some "El mensaje está vacío."
  else if 8000 < text.jsToString.length then some "Mensaje demasiado largo."
  else none

/-! ## Moderation gate (server.js lines 126–148) -/

/-- Outcome of the external moderation HTTP call as the relay can observe
it: the fetch rejecting, a non-success status, an unparseable body
(`res.json()` throwing), a parsed body whose `results[0]` is absent, or a
parsed verdict. -/
inductive ModOutcome where
  | networkError
  | badStatus (status : Nat)
  | badJson
  | missingResult
  | result (flagged : Bool)
deriving DecidableEq

structure ModVerdict where
  flagged : Bool
deriving DecidableEq

/-- The gate `runModerationCheck(content)`: with no API key configured, returns
`{flagged: false}` without any call; a fetch rejection, a non-success
status, or an unparseable body resolve to `{flagged: false}` (failure
logged); a missing `results[0]` yields `!!r?.flagged === false`. -/
def runModerationCheck (hasKey : Bool) (o : ModOutcome) : ModVerdict :=
  if !hasKey then ⟨false⟩
  else
    match o with
    | .networkError => ⟨false⟩
    | .badStatus _ => ⟨false⟩
    | .badJson => ⟨false⟩
    | .missingResult => ⟨false⟩
    | .result f => ⟨f⟩

/-! ## Prompt assembly (server.js lines 150–161) -/

/-- A caller-supplied history entry; `content` is modelled
post-stringification (`String(h.content)` — the identity on strings). -/
structure HistEntry where
  role : String
  content : String
deriving DecidableEq

structure PromptMsg where
  role : String
  content : String
deriving DecidableEq

/-- The system prompt, extended — when `topDocs` is non-empty — with the
labeled, numbered document list and the usage instruction
(server.js lines 151–153). -/
def ragSystemPrompt (systemPrompt : String) (topDocs : List RankedDoc) : String :=
  if topDocs.length ≠ 0 then
    systemPrompt ++ "\n\nDocumentos relevantes:\n"
      ++ String.intercalate "\n\n"
          (topDocs.enum.map fun p => "Documento " ++ toString (p.1 + 1) ++ ":\n" ++ p.2.text)
      ++ "\n\nUsa esta información cuando sea pertinente y cita la fuente si es necesario."
  else systemPrompt

/-- The coercion to `role: h.role === "assistant" ? "assistant" : "user"` with `content: String(h.content)`. -/
def coerceHistEntry (h : HistEntry) : PromptMsg :=
  ⟨if h.role = "assistant" then "assistant" else "user", h.content⟩

/-- The assembler `buildMessagesWithRAG(systemPrompt, history, userMessage, topDocs)`. -/
def buildMessagesWithRAG (systemPrompt : String) (history : List HistEntry)
    (userMessage : String) (topDocs : List RankedDoc) : List PromptMsg :=
  ⟨"system", ragSystemPrompt systemPrompt topDocs⟩
    :: (history.map coerceHistEntry ++ [⟨"user", userMessage⟩])

/-! ## The request pipeline -/

/-- The truncation `history.slice(-20)`: the most recent `n` entries, order preserved. -/
def lastN (n : Nat) (l : List HistEntry) : List HistEntry :=
  l.drop (l.length - n)

/-- An external HTTP request issued while handling one inbound request,
with the payload it carried. -/
inductive ExtCall where
  | moderation (input : String)
  | embedding (input : String)
  | completion (messages : List PromptMsg)
deriving DecidableEq

def ExtCall.isModeration : ExtCall → Bool
  | .moderation _ => true
  | _ => false

def ExtCall.isEmbedding : ExtCall → Bool
  | .embedding _ => true
  | _ => false

def ExtCall.isCompletion : ExtCall → Bool
  | .completion _ => true
  | _ => false

/-- Environment of one inbound request: configuration plus the outcomes
of the external calls, with `U` the type of the completion-call outcome
(buffered and streaming differ).  `embedResult = none` models
`getEmbedding` throwing (non-success status or network failure). -/
structure PipelineEnv (U : Type) where
  hasKey : Bool
  modOutcome : ModOutcome
  ragEnabled : Bool
  ragStore : List RagDoc
  embedResult : Option (List (Option ℝ))
  upstream : U
  topK : Nat
  systemPrompt : String

/-- The guard `RAG_ENABLED && RAG_VECTORS.length > 0` (server.js line 198). -/
def ragActive {U : Type} (env : PipelineEnv U) : Bool :=
  env.ragEnabled && !env.ragStore.isEmpty

/-- The retrieved documents of one request: empty when retrieval is
inactive or the embedding call failed (the failure is caught and logged;
the pipeline continues without context). -/
noncomputable def ragTopDocs {U : Type} (env : PipelineEnv U) : List RankedDoc :=
  if ragActive env then
    match env.embedResult with
    | some qemb => topDocsOf env.ragStore qemb env.topK
    | none => []
  else []

/-- The moderation call trace: `runModerationCheck` issues its fetch
exactly when a key is configured. -/
def modCallsOf (hasKey : Bool) (input : String) : List ExtCall :=
  if hasKey then [.moderation input] else []

/-- The embedding call trace: `getEmbedding` is invoked exactly when the
RAG block runs (even if the call then fails). -/
def ragCallsOf {U : Type} (env : PipelineEnv U) (input : String) : List ExtCall :=
  if ragActive env then [.embedding input] else []

/-! ## Buffered endpoint `POST /api/chat` (server.js lines 176–246) -/

/-- Outcome of the buffered completions call: the fetch or `res.json()`
throwing, a non-success status (whose status and body text are only
logged), or a success status with
`content = data?.choices?.[0]?.message?.content` (`none` when the field
is absent). -/
inductive ChatUpstream where
  | transportError
  | badStatus (status : Nat) (bodyText : String)
  | okBody (content : Option String)
deriving DecidableEq

abbrev ChatEnv := PipelineEnv ChatUpstream

inductive RespBody where
  | errMsg (msg : String)
  | reply (text : String)
deriving DecidableEq

/-- One (and exactly one) terminal JSON response, plus the ordered trace
of external calls issued for the request. -/
structure ChatResult where
  status : Nat
  body : RespBody
  calls : List ExtCall
deriving DecidableEq

/-- server.js lines 226–245: the handling of the buffered upstream
response.  `!reply` is the JS falsy test: an absent content field and an
empty-string content both take the malformed-response branch. -/
def chatCompletionResult (calls : List ExtCall) : ChatUpstream → ChatResult
  | .transportError => ⟨500, .errMsg "Error del servidor al procesar la solicitud.", calls⟩
  | .badStatus _ _ => ⟨502, .errMsg "Error comunicándose con el servicio de IA.", calls⟩
  | .okBody none => ⟨502, .errMsg "Respuesta inesperada del servicio de IA.", calls⟩
  | .okBody (some c) =>
    if c = "" then ⟨502, .errMsg "Respuesta inesperada del servicio de IA.", calls⟩
    else ⟨200, .reply (jsTrim c), calls⟩

/-- The endpoint `POST /api/chat`: validation → moderation → retrieval → prompt
assembly → credential check → buffered completion relay. -/
noncomputable def chatHandler (message : JSVal) (history : Option (List HistEntry))
    (env : ChatEnv) : ChatResult :=
  let userMessage := coerceMessage message
  let clientHistory := lastN 20 (history.getD [])
  match validateMessageText (.str userMessage) with
  | some v => ⟨400, .errMsg v, []⟩
  | none =>
    if (runModerationCheck env.hasKey env.modOutcome).flagged then
      ⟨400, .errMsg "El contenido del mensaje ha sido bloqueado por políticas de seguridad.",
        modCallsOf env.hasKey userMessage⟩
    else
      let messages := buildMessagesWithRAG env.systemPrompt clientHistory userMessage
        (ragTopDocs env)
      if env.hasKey then
        chatCompletionResult
          (modCallsOf env.hasKey userMessage ++ ragCallsOf env userMessage
            ++ [.completion messages])
          env.upstream
      else
        ⟨500, .errMsg "OpenAI API key not configured.",
          modCallsOf env.hasKey userMessage ++ ragCallsOf env userMessage⟩

/-! ## Streaming endpoint `POST /api/chat/stream` (server.js lines 249–349) -/

/-- One server-sent event written by the streaming endpoint: a data frame
`data: <payload>\n\n`, the terminal `event: done` frame, or an
`event: error` frame carrying the given message. -/
inductive SseEvent where
  | data (payload : String)
  | doneMark
  | errorEvent (msg : String)
deriving DecidableEq

def SseEvent.isData : SseEvent → Bool
  | .data _ => true
  | _ => false

def SseEvent.isError : SseEvent → Bool
  | .errorEvent _ => true
  | _ => false

def SseEvent.isDone : SseEvent → Bool
  | .doneMark => true
  | _ => false

/-- The builtin `JSON.stringify` applied to a string: quote it, escaping backslash,
quote and newline (the characters that can occur in a decoded line; all
others pass through unchanged). -/
def jsonQuote (s : String) : String :=
  "\"" ++ String.join (s.toList.map fun c =>
    if c = '\\' then "\\\\"
    else if c = '"' then "\\\""
    else if c = '\n' then "\\n"
    else String.singleton c) ++ "\""

/-- Remove one trailing carriage return, if present. -/
def dropCR (l : List Char) : List Char :=
  if l.getLast? = some '\r' then l.dropLast else l

/-- The split `chunk.split(/\r?\n/)`: split at every newline, each split consuming
one preceding carriage return when present. -/
def splitLines (chunk : String) : List String :=
  ((chunk.toList.splitOn '\n').map dropCR).map List.asString

/-- The frame written for one line of a decoded chunk (server.js lines
330–336): a whitespace-only line is skipped; a line starting with
`data:` is re-emitted with the prefix and the following whitespace
removed (`line.replace(/^data:\s*/, "")`); any other line is wrapped as a
JSON string and emitted as a data frame. -/
def lineFrame (line : String) : Option SseEvent :=
  if jsTrim line = "" then none
  else if ("data:".toList).isPrefixOf line.toList then
    some (.data ((line.toList.drop 5).dropWhile Char.isWhitespace).asString)
  else some (.data (jsonQuote line))

/-- The frames written for one decoded chunk (server.js lines 327–337):
`chunk.split(/\r?\n/).filter(Boolean)`, then one frame per line as above. -/
def chunkFrames (chunk : String) : List SseEvent :=
  ((splitLines chunk).filter (· ≠ "")).filterMap lineFrame

/-- The frame emitted for one non-blank line: a `data:`-prefixed line is
re-emitted with the prefix and following whitespace removed; any other
line is wrapped as a JSON string.  (`lineFrame` returns exactly this on
every line whose trim is non-empty.) -/
def forwardFrame (line : String) : SseEvent :=
  if ("data:".toList).isPrefixOf line.toList then
    .data ((line.toList.drop 5).dropWhile Char.isWhitespace).asString
  else .data (jsonQuote line)

/-- Outcome of the streaming completions call: the fetch rejecting, a
non-success status (or missing body), or a sequence of decoded chunks —
followed either by clean exhaustion (`dropped = false`) or by
`reader.read()` throwing mid-stream (`dropped = true`). -/
inductive StreamUpstream where
  | fetchFailed
  | badStatus (status : Nat) (bodyText : String)
  | chunks (cs : List String) (dropped : Bool)
deriving DecidableEq

abbrev StreamEnv := PipelineEnv StreamUpstream

/-- The events written after the headers are committed, per upstream
outcome (server.js lines 311–347): a non-success status emits one error
event; clean exhaustion emits the forwarded frames then one done event;
a mid-stream transport failure is caught by the outer handler, which
emits one error event after the frames already forwarded (the write and
close are themselves inside try/catch: a failure there is swallowed). -/
def streamEvents : StreamUpstream → List SseEvent
  | .fetchFailed => [.errorEvent "Error en el servidor durante el streaming."]
  | .badStatus _ _ => [.errorEvent "Error en streaming desde OpenAI"]
  | .chunks cs false => (cs.map chunkFrames).flatten ++ [.doneMark]
  | .chunks cs true =>
    (cs.map chunkFrames).flatten ++ [.errorEvent "Error en el servidor durante el streaming."]

/-- The caller-visible outcome of `/api/chat/stream`: either an early
JSON error response (written before the event-stream headers), or a
committed HTTP-200 event stream — headers set and flushed first, then
the listed events written in order, then the connection ended. -/
inductive StreamResponse where
  | earlyJson (status : Nat) (errText : String)
  | streamed (events : List SseEvent)
deriving DecidableEq

/-- The endpoint `POST /api/chat/stream`: identical to the buffered path up to prompt
assembly and the credential check; then the event-stream headers are set
and flushed (committing status 200) before the upstream call, and every
later outcome is delivered as stream events. -/
noncomputable def streamHandler (message : JSVal) (history : Option (List HistEntry))
    (env : StreamEnv) : StreamResponse × List ExtCall :=
  let userMessage := coerceMessage message
  let clientHistory := lastN 20 (history.getD [])
  match validateMessageText (.str userMessage) with
  | some v => (.earlyJson 400 v, [])
  | none =>
    if (runModerationCheck env.hasKey env.modOutcome).flagged then
      (.earlyJson 400 "El contenido del mensaje ha sido bloqueado por políticas de seguridad.",
        modCallsOf env.hasKey userMessage)
    else
      let messages := buildMessagesWithRAG env.systemPrompt clientHistory userMessage
        (ragTopDocs env)
      if env.hasKey then
        (.streamed (streamEvents env.upstream),
          modCallsOf env.hasKey userMessage ++ ragCallsOf env userMessage
            ++ [.completion messages])
      else
        (.earlyJson 500 "OpenAI API key not configured.",
          modCallsOf env.hasKey userMessage ++ ragCallsOf env userMessage)

/-! ## Helper lemmas: the similarity engine -/

theorem dot_nil_right (a : List (Option ℝ)) : dot a [] = 0 := by
  induction a with
  | nil => rfl
  | cons x xs ih => simp [dot, ih]

theorem dot_zero_right (a : List (Option ℝ)) :
    ∀ b : List (Option ℝ), (∀ y ∈ b, jsNum y = 0) → dot a b = 0 := by
  induction a with
  | nil => intro b _; rfl
  | cons x xs ih =>
    intro b hb
    cases b with
    | nil => simp [dot, dot_nil_right]
    | cons y ys =>
      have hy : jsNum y = 0 := hb y (by simp)
      have hys := ih ys fun z hz => hb z (List.mem_cons_of_mem y hz)
      simp [dot, hy, hys]

theorem dot_pad (a : List (Option ℝ)) :
    ∀ b p : List (Option ℝ), (∀ x ∈ p, jsNum x = 0) → dot a (b ++ p) = dot a b := by
  induction a with
  | nil => intro b p _; rfl
  | cons x xs ih =>
    intro b p hp
    cases b with
    | nil =>
      rw [List.nil_append, dot_nil_right, dot_zero_right _ p hp]
    | cons y ys => simp [dot, ih ys p hp]

theorem dot_map_jsNum (a : List (Option ℝ)) :
    ∀ b : List (Option ℝ),
      dot (a.map fun x => some (jsNum x)) (b.map fun x => some (jsNum x)) = dot a b := by
  induction a with
  | nil => intro b; rfl
  | cons x xs ih =>
    intro b
    cases b with
    | nil => simp [dot, dot_nil_right]
    | cons y ys => simpa [dot, jsNum] using ih ys

theorem dot_self_nonneg (a : List (Option ℝ)) : 0 ≤ dot a a := by
  induction a with
  | nil => simp [dot]
  | cons x xs ih => exact add_nonneg (mul_self_nonneg _) ih

theorem dot_self_pos (a : List (Option ℝ)) (ha : ∃ x ∈ a, jsNum x ≠ 0) :
    0 < dot a a := by
  induction a with
  | nil => simp at ha
  | cons x xs ih =>
    rcases ha with ⟨z, hz, hzne⟩
    rcases List.mem_cons.mp hz with rfl | hzs
    · exact add_pos_of_pos_of_nonneg (mul_self_pos.mpr hzne) (dot_self_nonneg xs)
    · exact add_pos_of_nonneg_of_pos (mul_self_nonneg _) (ih ⟨z, hzs, hzne⟩)

theorem norm_eq_zero_of_zero_entries (a : List (Option ℝ)) (h : ∀ y ∈ a, jsNum y = 0) :
    norm a = 0 := by
  rw [norm, dot_zero_right a a h, Real.sqrt_zero]

/-! ## Claim theorems -/

/-- Claim C3 — `cosineSim` of two numeric vectors is the dot product divided
by the product of the Euclidean norms; when the product of norms is zero
it returns `0` instead of failing; for every nonzero vector `a`,
`cosineSim a a = 1` exactly in the real-number model of floating point
(hence within floating-point tolerance), and `cosineSim a z = 0` exactly
for a zero vector `z`.  The function is a pure function of its arguments
(determinism is inherent in the embedding). -/
theorem C3_cosineSim_props (a b : List (Option ℝ)) (n : Nat)
    (ha : ∃ x ∈ a, jsNum x ≠ 0) :
    (norm a ≠ 0 → norm b ≠ 0 → cosineSim a b = dot a b / (norm a * norm b))
    ∧ (norm a = 0 ∨ norm b = 0 → cosineSim a b = 0)
    ∧ cosineSim a a = 1
    ∧ cosineSim a (List.replicate n (some 0)) = 0 := by
  have hpos : 0 < dot a a := dot_self_pos a ha
  refine ⟨?_, ?_, ?_, ?_⟩
  · intro h1 h2
    rw [cosineSim, if_neg (mul_ne_zero h1 h2)]
  · intro h
    rcases h with h | h <;> rw [cosineSim, if_pos (by rw [h]; ring)]
  · have hsq : norm a * norm a = dot a a := Real.mul_self_sqrt hpos.le
    rw [cosineSim, if_neg (by rw [hsq]; exact hpos.ne'), hsq, div_self hpos.ne']
  · have hz : norm (List.replicate n (some (0 : ℝ))) = 0 :=
      norm_eq_zero_of_zero_entries _ fun y hy => by
        rw [List.eq_of_mem_replicate hy]; rfl
    rw [cosineSim, if_pos (by rw [hz, mul_zero])]

/-- Witness for C3 at the concrete vector `[1]`. -/
theorem C3_cosineSim_props_witness :
    cosineSim [some 1] [some 1] = 1 :=
  (C3_cosineSim_props [some 1] [some 1] 0
    ⟨some 1, by simp, by rw [jsNum, Option.getD_some]; exact one_ne_zero⟩).2.2.1

/-- Claim C10 — `dot` and `cosineSim` are total on every pair of vectors
(totality of the Lean functions; nothing throws): `dot` iterates over the
indices of its first argument substituting `0` for absent or falsy
entries of either vector, so appending zero or absent entries to the
second vector never changes the result (the shorter vector acts
zero-padded over the first argument's index range), replacing every entry
by its falsy-collapsed value changes nothing, and a zero denominator
makes `cosineSim` return `0` rather than divide. -/
theorem C10_dot_total (a b : List (Option ℝ)) (k : Nat) :
    dot a (b ++ List.replicate k (some 0)) = dot a b
    ∧ dot a (b ++ List.replicate k none) = dot a b
    ∧ dot (a.map fun x => some (jsNum x)) (b.map fun x => some (jsNum x)) = dot a b
    ∧ (norm a * norm b = 0 → cosineSim a b = 0) := by
  refine ⟨?_, ?_, dot_map_jsNum a b, ?_⟩
  · exact dot_pad a b _ fun x hx => by rw [List.eq_of_mem_replicate hx]; rfl
  · exact dot_pad a b _ fun x hx => by rw [List.eq_of_mem_replicate hx]; rfl
  · intro h
    rw [cosineSim, if_pos h]

/-- Witness for C10 at concrete vectors of unequal length: `[1, 2]`
against `[5]` padded with an absent entry, and the zero-denominator case
`[] · [1]`. -/
theorem C10_dot_total_witness :
    dot [some 1, some 2] ([some 5] ++ List.replicate 1 (none : Option ℝ)) = dot [some 1, some 2] [some 5]
    ∧ cosineSim [] [some 1] = 0 := by
  refine ⟨(C10_dot_total [some 1, some 2] [some 5] 1).2.1, ?_⟩
  refine (C10_dot_total [] [some 1] 0).2.2.2 ?_
  rw [norm, dot, Real.sqrt_zero, zero_mul]

theorem sims_map_toRagDoc (corpus : List RagDoc) (qemb : List (Option ℝ)) :
    (sims corpus qemb).map (fun d => d.toRagDoc) = corpus := by
  rw [sims, List.map_map]
  have : ((fun d : RankedDoc => d.toRagDoc) ∘ fun p : Nat × RagDoc =>
      (⟨p.2, p.1, cosineSim qemb p.2.embedding⟩ : RankedDoc)) = Prod.snd := rfl
  rw [this, List.enum_map_snd]

/-- Claim C4 — the ranking step computes a similarity against every corpus
entry (the ranked sequence is a permutation of the similarity-tagged
corpus, whose underlying entries are exactly the corpus in order and
whose `sim` field is the cosine similarity of the query against that
entry); the result is sorted non-increasing by similarity with entries of
equal similarity kept in original corpus order; and the pipeline selects
exactly the top-K prefix of that sequence. -/
theorem C4_rank_props (corpus : List RagDoc) (qemb : List (Option ℝ)) (k : Nat) :
    (rank corpus qemb).Perm (sims corpus qemb)
    ∧ (sims corpus qemb).map (fun d => d.toRagDoc) = corpus
    ∧ (∀ d ∈ sims corpus qemb, d.sim = cosineSim qemb d.embedding)
    ∧ (rank corpus qemb).Sorted (fun x y => y.sim ≤ x.sim)
    ∧ (rank corpus qemb).Sorted (fun x y => x.sim = y.sim → x.idx ≤ y.idx)
    ∧ topDocsOf corpus qemb k = (rank corpus qemb).take k := by
  have hsorted := List.sorted_insertionSort rankLE (sims corpus qemb)
  refine ⟨List.perm_insertionSort rankLE _, sims_map_toRagDoc corpus qemb, ?_, ?_, ?_, rfl⟩
  · intro d hd
    rcases List.mem_map.mp hd with ⟨p, _, rfl⟩
    rfl
  · exact hsorted.imp fun h => by
      rcases h with h | ⟨h, _⟩
      · exact h.le
      · exact h.ge
  · exact hsorted.imp fun h heq => by
      rcases h with h | ⟨_, hi⟩
      · exact absurd heq (by rw [← heq] at h; exact (lt_irrefl _ (heq ▸ h)).elim)
      · exact hi

/-- Witness for C4 at a one-document corpus. -/
theorem C4_rank_props_witness :
    (sims [⟨.null, "doc", [some 1]⟩] [some 1]).map (fun d => d.toRagDoc)
      = [⟨.null, "doc", [some 1]⟩] :=
  (C4_rank_props [⟨.null, "doc", [some 1]⟩] [some 1] 3).2.1

theorem coerceHistEntry_role_ne_system (h : HistEntry) :
    ¬(coerceHistEntry h).role = "system" := by
  rw [coerceHistEntry]
  by_cases hr : h.role = "assistant" <;> simp [hr]

/-- Claim C5 — for every system prompt, retrieved-docs list, history and
user message, `buildMessagesWithRAG` returns the leading system message
(whose content is the prompt, extended with the labeled, numbered
document list when the docs are non-empty), then the history entries in
original order with roles coerced into the closed set
and contents stringified, then the current user message last; exactly one
message carries the `system` role.  Equal inputs give equal output
(inherent: it is a function). -/
theorem C5_assemble_props (sp : String) (hist : List HistEntry) (um : String)
    (docs : List RankedDoc) :
    buildMessagesWithRAG sp hist um docs
      = ⟨"system", ragSystemPrompt sp docs⟩ :: (hist.map coerceHistEntry ++ [⟨"user", um⟩])
    ∧ (buildMessagesWithRAG sp hist um docs).head? = some ⟨"system", ragSystemPrompt sp docs⟩
    ∧ (buildMessagesWithRAG sp hist um docs).getLast? = some ⟨"user", um⟩
    ∧ (buildMessagesWithRAG sp hist um docs).countP (fun msg => msg.role == "system") = 1
    ∧ (∀ msg ∈ buildMessagesWithRAG sp hist um docs,
        msg.role ∈ (["system", "user", "assistant"] : List String))
    ∧ (docs = [] → ragSystemPrompt sp docs = sp)
    ∧ (docs ≠ [] → ragSystemPrompt sp docs
        = sp ++ "\n\nDocumentos relevantes:\n"
          ++ String.intercalate "\n\n"
              (docs.enum.map fun p => "Documento " ++ toString (p.1 + 1) ++ ":\n" ++ p.2.text)
          ++ "\n\nUsa esta información cuando sea pertinente y cita la fuente si es necesario.") := by
  refine ⟨rfl, rfl, ?_, ?_, ?_, ?_, ?_⟩
  · rw [buildMessagesWithRAG, ← List.cons_append, List.getLast?_concat]
  · rw [buildMessagesWithRAG, List.countP_cons_of_pos _ _ (by simp),
      List.countP_append, List.countP_cons_of_neg _ _ (by simp),
      List.countP_eq_zero.mpr, List.countP_nil]
    intro msg hmsg
    rcases List.mem_map.mp hmsg with ⟨h, _, rfl⟩
    simpa using coerceHistEntry_role_ne_system h
  · intro msg hmsg
    rw [buildMessagesWithRAG] at hmsg
    rcases List.mem_cons.mp hmsg with rfl | hmsg
    · simp
    · rcases List.mem_append.mp hmsg with hmsg | hmsg
      · rcases List.mem_map.mp hmsg with ⟨h, _, rfl⟩
        rw [coerceHistEntry]
        by_cases hr : h.role = "assistant" <;> simp [hr]
      · rw [List.mem_singleton.mp hmsg]
        simp
  · intro hd
    rw [ragSystemPrompt, if_neg (by simp [hd])]
  · intro hd
    rw [ragSystemPrompt, if_pos (by simpa using hd)]

/-- Witness for C5 at a concrete prompt, one history entry with an
unrecognized role, and an empty docs list. -/
theorem C5_assemble_props_witness :
    (buildMessagesWithRAG "S" [⟨"bot", "x"⟩] "hola" []).getLast? = some ⟨"user", "hola"⟩
    ∧ ragSystemPrompt "S" [] = "S" :=
  ⟨(C5_assemble_props "S" [⟨"bot", "x"⟩] "hola" []).2.2.1,
    (C5_assemble_props "S" [⟨"bot", "x"⟩] "hola" []).2.2.2.2.2.1 rfl⟩

/-! ## Helper lemmas: the buffered handler's call trace -/

theorem chatCompletionResult_calls (calls : List ExtCall) (u : ChatUpstream) :
    (chatCompletionResult calls u).calls = calls := by
  cases u with
  | transportError => rfl
  | badStatus s t => rfl
  | okBody c =>
    cases c with
    | none => rfl
    | some s =>
      rw [chatCompletionResult]
      split <;> rfl

theorem mem_modCallsOf {c : ExtCall} {k : Bool} {um : String}
    (hc : c ∈ modCallsOf k um) : c = .moderation um := by
  rw [modCallsOf] at hc
  split at hc
  · simpa using hc
  · simp at hc

theorem ragCallsOf_of_empty {U : Type} {env : PipelineEnv U} (hs : env.ragStore = [])
    (um : String) : ragCallsOf env um = [] := by
  rw [ragCallsOf, if_neg]
  rw [ragActive, hs]
  simp

theorem chatHandler_no_embedding_of_empty_store (m : JSVal)
    (h : Option (List HistEntry)) (env : ChatEnv) (hs : env.ragStore = []) :
    ∀ c ∈ (chatHandler m h env).calls, c.isEmbedding = false := by
  intro c hc
  have hrc := ragCallsOf_of_empty hs (coerceMessage m)
  simp only [chatHandler] at hc
  split at hc
  · simp at hc
  · split at hc
    · rw [ChatResult.calls] at hc
      rw [mem_modCallsOf hc]
      rfl
    · split at hc
      · rw [chatCompletionResult_calls, hrc, List.append_nil] at hc
        rcases List.mem_append.mp hc with hcm | hcm
        · rw [mem_modCallsOf hcm]; rfl
        · rw [List.mem_singleton.mp hcm]; rfl
      · rw [ChatResult.calls, hrc, List.append_nil] at hc
        rw [mem_modCallsOf hc]
        rfl

/-- Claim C9 counterexample — a record with every required field missing
does not cause the load to be rejected: with RAG enabled and a source
array holding exactly that record, the loaded store contains the record
(the store is not empty, retrieval stays enabled). -/
theorem C9_counterexample :
    loadRagVectors true (.array [⟨none, none, none⟩]) = [⟨none, none, none⟩]
    ∧ loadRagVectors true (.array [⟨none, none, none⟩]) ≠ [] :=
  ⟨rfl, by simp [loadRagVectors]⟩

/-- Claim C9 as amended — a source that is unreadable, unparseable, or not
an array causes the whole load to fall back to the empty store (and with
an empty store no request ever issues an embedding call, so retrieval is
disabled for the process lifetime) while the server keeps running (the
load is total); records of an array source are not individually
validated: each is kept as `{id, text, embedding}` with whatever fields
are present or absent.  RAG disabled always gives the empty store. -/
theorem C9_load_props (src : VectorsSource) (records : List RawRecord)
    (m : JSVal) (h : Option (List HistEntry)) (env : ChatEnv) :
    loadRagVectors false src = []
    ∧ loadRagVectors true .unreadable = []
    ∧ loadRagVectors true .unparseable = []
    ∧ loadRagVectors true .notArray = []
    ∧ loadRagVectors true (.array records) = records.map (fun v => ⟨v.id, v.text, v.embedding⟩)
    ∧ (env.ragStore = [] → ∀ c ∈ (chatHandler m h env).calls, c.isEmbedding = false) :=
  ⟨rfl, rfl, rfl, rfl, rfl, chatHandler_no_embedding_of_empty_store m h env⟩

/-- Witness for C9: the fallbacks at concrete sources. -/
theorem C9_load_props_witness :
    loadRagVectors true .unreadable = []
    ∧ loadRagVectors true (.array [⟨none, some "t", none⟩]) = [⟨none, some "t", none⟩] :=
  ⟨(C9_load_props .notArray [] .null none
      ⟨true, .result false, false, [], none, .okBody none, 3, "S"⟩).2.1,
    ((C9_load_props .notArray [⟨none, some "t", none⟩] .null none
      ⟨true, .result false, false, [], none, .okBody none, 3, "S"⟩).2.2.2.2.1).trans rfl⟩

theorem validateMessageText_none {s : String}
    (h : validateMessageText (.str s) = none) : jsTrim s ≠ "" ∧ s.length ≤ 8000 := by
  rw [validateMessageText] at h
  split at h
  · simp at h
  · split at h
    · simp at h
    · next h2 =>
      split at h
      · simp at h
      · next h3 => exact ⟨h2, not_lt.mp h3⟩

/-- Claim C7 counterexample — a `message` that is not a string is not
rejected: the boolean `true` is truthy, so `(body.message || "").toString()`
coerces it to the string `"true"`, which passes validation; with a mock
environment whose moderation is clean and whose upstream succeeds, `/chat`
responds 200 and issues two network calls, where the claim demands a 400
response and zero calls. -/
theorem C7_counterexample :
    (chatHandler (.bool true) none
      ⟨true, .result false, false, [], none, .okBody (some "ok"), 3, "S"⟩).status = 200
    ∧ (chatHandler (.bool true) none
      ⟨true, .result false, false, [], none, .okBody (some "ok"), 3, "S"⟩).calls.length = 2 := by
  constructor <;> rfl

/-- Claim C7 as amended — for every inbound request whose `message` is falsy
(absent, `null`, `false`, `0`, or the empty string) or whose string
coercion is whitespace-only or longer than 8000 characters, `/chat`
responds 400 with a validation-error body and no network call (moderation,
embedding, or completion) is made; a truthy non-string `message` is
instead coerced by `.toString()` and processed. -/
theorem C7_validation_props (m : JSVal) (h : Option (List HistEntry)) (env : ChatEnv)
    (hv : jsTrim (coerceMessage m) = "" ∨ 8000 < (coerceMessage m).length) :
    (chatHandler m h env).status = 400
    ∧ (∃ e, (chatHandler m h env).body = .errMsg e)
    ∧ (chatHandler m h env).calls = [] := by
  have hne : validateMessageText (.str (coerceMessage m)) ≠ none := by
    intro hnone
    rcases validateMessageText_none hnone with ⟨h1, h2⟩
    rcases hv with hv | hv
    · exact h1 hv
    · exact absurd hv (not_lt.mpr h2)
  rcases ho : validateMessageText (.str (coerceMessage m)) with _ | e
  · exact absurd ho hne
  · exact ⟨by simp only [chatHandler, ho], ⟨e, by simp only [chatHandler, ho]⟩,
      by simp only [chatHandler, ho]⟩

/-- Witness for C7 (amended) at the whitespace-only message `"   "`. -/
theorem C7_validation_props_witness :
    (chatHandler (.str "   ") none
      ⟨true, .result false, false, [], none, .okBody (some "ok"), 3, "S"⟩).status = 400 :=
  (C7_validation_props (.str "   ") none
    ⟨true, .result false, false, [], none, .okBody (some "ok"), 3, "S"⟩
    (Or.inl (by decide))).1

/-- Claim C6 — every failure mode of the moderation gate (network error,
non-success status, unparseable body, missing `results[0]`, missing API
key) resolves to `flagged: false`, so a moderation-call failure never
blocks a request; and whenever the verdict is `flagged: true` (on a
request that passed validation), `/chat` responds 400 with the
policy-violation message having issued only the moderation call — no
embedding call and no completion call. -/
theorem C6_moderation_props (hk : Bool) (o : ModOutcome) (s : Nat) (m : JSVal)
    (h : Option (List HistEntry)) (env : ChatEnv) :
    (runModerationCheck hk .networkError).flagged = false
    ∧ (runModerationCheck hk (.badStatus s)).flagged = false
    ∧ (runModerationCheck hk .badJson).flagged = false
    ∧ (runModerationCheck hk .missingResult).flagged = false
    ∧ (runModerationCheck false o).flagged = false
    ∧ ((runModerationCheck env.hasKey env.modOutcome).flagged = true →
        validateMessageText (.str (coerceMessage m)) = none →
        chatHandler m h env
          = ⟨400, .errMsg "El contenido del mensaje ha sido bloqueado por políticas de seguridad.",
              [.moderation (coerceMessage m)]⟩
          ∧ ∀ c ∈ (chatHandler m h env).calls,
              c.isEmbedding = false ∧ c.isCompletion = false) := by
  refine ⟨by cases hk <;> rfl, by cases hk <;> rfl, by cases hk <;> rfl,
    by cases hk <;> rfl, rfl, ?_⟩
  intro hf hv
  have hk' : env.hasKey = true := by
    rcases hb : env.hasKey with _ | _
    · simp [runModerationCheck, hb] at hf
    · rfl
  rw [hk'] at hf
  have hres : chatHandler m h env
      = ⟨400, .errMsg "El contenido del mensaje ha sido bloqueado por políticas de seguridad.",
          [.moderation (coerceMessage m)]⟩ := by
    simp only [chatHandler, hv, hk', modCallsOf, if_true, hf]
  refine ⟨hres, ?_⟩
  intro c hc
  rw [hres] at hc
  rw [List.mem_singleton.mp hc]
  exact ⟨rfl, rfl⟩

/-- Witness for C6 at a flagged verdict on the message `"hola"`. -/
theorem C6_moderation_props_witness :
    chatHandler (.str "hola") none
      ⟨true, .result true, false, [], none, .okBody (some "ok"), 3, "S"⟩
      = ⟨400, .errMsg "El contenido del mensaje ha sido bloqueado por políticas de seguridad.",
          [.moderation "hola"]⟩ :=
  ((C6_moderation_props true .networkError 0 (.str "hola") none
      ⟨true, .result true, false, [], none, .okBody (some "ok"), 3, "S"⟩).2.2.2.2.2
    rfl (by decide)).1

/-- Claim C8 — on a validated, unflagged request with a key configured:
a non-success upstream status yields 502 with a fixed generic body (for
every upstream status and body text — so the upstream text never reaches
the caller; it is only logged); a success status lacking the first
choice's message content yields 502 with the fixed
malformed-response body; a transport exception yields 500 with a generic
body; a success with non-empty content yields 200 with the content
trimmed of surrounding whitespace.  Exactly one completion call is issued
(no retry), and the handler returns exactly one terminal response
(inherent: it is a function into one result). -/
theorem C8_upstream_props (m : JSVal) (h : Option (List HistEntry)) (env : ChatEnv)
    (hv : validateMessageText (.str (coerceMessage m)) = none)
    (hm : (runModerationCheck env.hasKey env.modOutcome).flagged = false)
    (hk : env.hasKey = true) :
    (∀ s t, env.upstream = .badStatus s t →
      (chatHandler m h env).status = 502
      ∧ (chatHandler m h env).body = .errMsg "Error comunicándose con el servicio de IA.")
    ∧ (env.upstream = .okBody none →
      (chatHandler m h env).status = 502
      ∧ (chatHandler m h env).body = .errMsg "Respuesta inesperada del servicio de IA.")
    ∧ (env.upstream = .transportError →
      (chatHandler m h env).status = 500
      ∧ (chatHandler m h env).body = .errMsg "Error del servidor al procesar la solicitud.")
    ∧ (∀ c, env.upstream = .okBody (some c) → c ≠ "" →
      (chatHandler m h env).status = 200 ∧ (chatHandler m h env).body = .reply (jsTrim c))
    ∧ (chatHandler m h env).calls.countP ExtCall.isCompletion = 1 := by
  have hres : chatHandler m h env
      = chatCompletionResult
          (modCallsOf env.hasKey (coerceMessage m) ++ ragCallsOf env (coerceMessage m)
            ++ [.completion (buildMessagesWithRAG env.systemPrompt (lastN 20 (h.getD []))
                  (coerceMessage m) (ragTopDocs env))])
          env.upstream := by
    rw [hk] at hm
    simp only [chatHandler, hv, hk, hm, Bool.false_eq_true, if_false, if_true]
  refine ⟨?_, ?_, ?_, ?_, ?_⟩
  · intro s t heq
    rw [hres, heq]
    exact ⟨rfl, rfl⟩
  · intro heq
    rw [hres, heq]
    exact ⟨rfl, rfl⟩
  · intro heq
    rw [hres, heq]
    exact ⟨rfl, rfl⟩
  · intro c heq hcne
    rw [hres, heq]
    rw [chatCompletionResult, if_neg hcne]
    exact ⟨rfl, rfl⟩
  · rw [hres, chatCompletionResult_calls, List.countP_append, List.countP_append]
    have h1 : (modCallsOf env.hasKey (coerceMessage m)).countP ExtCall.isCompletion = 0 := by
      rw [modCallsOf]
      split <;> rfl
    have h2 : (ragCallsOf env (coerceMessage m)).countP ExtCall.isCompletion = 0 := by
      rw [ragCallsOf]
      split <;> rfl
    rw [h1, h2]
    rfl

/-- Witness for C8 at a mock upstream returning status 500 with body
`"boom"`: the caller sees 502 with the generic body; `"boom"` does not
appear. -/
theorem C8_upstream_props_witness :
    (chatHandler (.str "hola") none
      ⟨true, .result false, false, [], none, .badStatus 500 "boom", 3, "S"⟩).status = 502
    ∧ (chatHandler (.str "hola") none
      ⟨true, .result false, false, [], none, .badStatus 500 "boom", 3, "S"⟩).body
        = .errMsg "Error comunicándose con el servicio de IA." :=
  (C8_upstream_props (.str "hola") none
    ⟨true, .result false, false, [], none, .badStatus 500 "boom", 3, "S"⟩
    (by decide) rfl rfl).1 500 "boom" rfl

/-! ## Helper lemmas: the streaming relay -/

theorem jsTrim_empty : jsTrim "" = "" := rfl

theorem lineFrame_of_ne {l : String} (hl : ¬jsTrim l = "") :
    lineFrame l = some (forwardFrame l) := by
  rw [lineFrame, if_neg hl, forwardFrame]
  split <;> rfl

theorem filter_filterMap_lineFrame (ls : List String) :
    (ls.filter (· ≠ "")).filterMap lineFrame
      = (ls.filter fun l => jsTrim l ≠ "").map forwardFrame := by
  induction ls with
  | nil => rfl
  | cons l ls ih =>
    by_cases hl : jsTrim l = ""
    · by_cases hle : l = ""
      · rw [List.filter_cons_of_neg (by simp [hle]),
          List.filter_cons_of_neg (by simp [hle, jsTrim_empty]), ih]
      · rw [List.filter_cons_of_pos (by simpa using hle),
          List.filter_cons_of_neg (by simpa using hl), List.filterMap_cons,
          lineFrame, if_pos hl, ih]
    · have hle : ¬l = "" := fun he => hl (he ▸ jsTrim_empty)
      rw [List.filter_cons_of_pos (by simpa using hle),
        List.filter_cons_of_pos (by simpa using hl), List.filterMap_cons,
        lineFrame_of_ne hl, List.map_cons, ih]

theorem chunkFrames_eq (chunk : String) :
    chunkFrames chunk
      = ((splitLines chunk).filter fun l => jsTrim l ≠ "").map forwardFrame := by
  rw [chunkFrames, filter_filterMap_lineFrame]

theorem flatten_chunkFrames (cs : List String) :
    (cs.map chunkFrames).flatten
      = ((cs.map splitLines).flatten.filter fun l => jsTrim l ≠ "").map forwardFrame := by
  induction cs with
  | nil => rfl
  | cons c cs ih =>
    simp only [List.map_cons, List.flatten_cons, List.filter_append, List.map_append, ih,
      chunkFrames_eq]

theorem forwardFrame_isData (l : String) : (forwardFrame l).isData = true := by
  rw [forwardFrame]
  split <;> rfl

theorem mem_flatten_chunkFrames_isData {cs : List String} {e : SseEvent}
    (he : e ∈ (cs.map chunkFrames).flatten) : e.isData = true := by
  rw [flatten_chunkFrames] at he
  rcases List.mem_map.mp he with ⟨l, _, rfl⟩
  exact forwardFrame_isData l

theorem countP_flatten_chunkFrames_isError (cs : List String) :
    ((cs.map chunkFrames).flatten).countP SseEvent.isError = 0 := by
  refine List.countP_eq_zero.mpr fun e he => ?_
  have hd := mem_flatten_chunkFrames_isData he
  cases e <;> simp_all [SseEvent.isData, SseEvent.isError]

theorem streamHandler_committed (m : JSVal) (h : Option (List HistEntry)) (env : StreamEnv)
    (hv : validateMessageText (.str (coerceMessage m)) = none)
    (hm : (runModerationCheck env.hasKey env.modOutcome).flagged = false)
    (hk : env.hasKey = true) :
    (streamHandler m h env).1 = .streamed (streamEvents env.upstream) := by
  rw [hk] at hm
  simp only [streamHandler, hv, hk, hm, Bool.false_eq_true, if_false, if_true]

/-! ## Streaming claim theorems -/

/-- Claim C1 counterexample — an upstream stream delivering the single
non-empty line `" "` (whitespace only) and then closing cleanly produces
zero forwarded data frames, not one: the whitespace-only line is silently
skipped, where the claim demands one wrapped data frame per non-empty
line. -/
theorem C1_counterexample :
    ((splitLines " ").filter (· ≠ "")).length = 1
    ∧ streamEvents (.chunks [" "] false) = [.doneMark]
    ∧ (streamEvents (.chunks [" "] false)).countP SseEvent.isData = 0 := by
  refine ⟨by decide, by decide, by decide⟩

/-- Claim C1 as amended — for every upstream stream that delivers
newline-delimited lines and closes cleanly, on a validated, unflagged,
key-present request the relay emits one data frame per non-blank upstream
line (lines that are empty or whitespace-only are skipped): a line
beginning with `data:` is re-emitted with its payload, every other
non-blank line is wrapped as a JSON string — in exactly the order
received, followed by exactly one terminal done event, after which the
connection is closed.  (Every pre-done event is a data frame.) -/
theorem C1_stream_clean (m : JSVal) (h : Option (List HistEntry)) (env : StreamEnv)
    (cs : List String)
    (hv : validateMessageText (.str (coerceMessage m)) = none)
    (hm : (runModerationCheck env.hasKey env.modOutcome).flagged = false)
    (hk : env.hasKey = true)
    (hu : env.upstream = .chunks cs false) :
    (streamHandler m h env).1
      = .streamed
          ((((cs.map splitLines).flatten.filter fun l => jsTrim l ≠ "").map forwardFrame)
            ++ [.doneMark])
    ∧ (∀ e ∈ (cs.map chunkFrames).flatten, e.isData = true)
    ∧ ((((cs.map splitLines).flatten.filter fun l => jsTrim l ≠ "").map forwardFrame)
          ++ [SseEvent.doneMark]).countP SseEvent.isDone = 1
    ∧ (∀ l, ("data:".toList).isPrefixOf l.toList →
        forwardFrame l = .data ((l.toList.drop 5).dropWhile Char.isWhitespace).asString)
    ∧ (∀ l, ¬("data:".toList).isPrefixOf l.toList →
        forwardFrame l = .data (jsonQuote l)) := by
  refine ⟨?_, fun e he => mem_flatten_chunkFrames_isData he, ?_, ?_, ?_⟩
  · rw [streamHandler_committed m h env hv hm hk, hu]
    rw [show streamEvents (.chunks cs false) = (cs.map chunkFrames).flatten ++ [.doneMark] from rfl,
      flatten_chunkFrames]
  · rw [List.countP_append, ← flatten_chunkFrames, List.countP_eq_zero.mpr, Nat.zero_add]
    · rfl
    · intro e he
      have hd := mem_flatten_chunkFrames_isData he
      cases e <;> simp_all [SseEvent.isData, SseEvent.isDone]
  · intro l hp
    rw [forwardFrame, if_pos hp]
  · intro l hp
    rw [forwardFrame, if_neg hp]

/-- Witness for C1: three upstream `data:` lines then a clean close
produce exactly three forwarded data frames followed by one done event,
in that order. -/
theorem C1_stream_clean_witness :
    (streamHandler (.str "hola") none
      ⟨true, ModOutcome.result false, false, [], none,
        StreamUpstream.chunks ["data: a\n", "data: b\n", "data: c\n"] false, 3, "S"⟩).1
      = .streamed [.data "a", .data "b", .data "c", .doneMark] :=
  ((C1_stream_clean (.str "hola") none
      ⟨true, ModOutcome.result false, false, [], none,
        StreamUpstream.chunks ["data: a\n", "data: b\n", "data: c\n"] false, 3, "S"⟩
      ["data: a\n", "data: b\n", "data: c\n"] (by decide) rfl rfl rfl).1).trans
    (by decide)

/-- Claim C2 — on a request that passes validation, moderation, and the
credential check, the relay commits to an event-stream response (status
200) before the upstream call: for every upstream outcome the result is a
committed stream, never a changed HTTP status; an upstream non-success
status or fetch failure yields exactly one error event and the close; a
mid-stream transport failure yields the data frames already forwarded —
all of which remain delivered — followed by exactly one error event (the
close, and any failure while closing, is swallowed: the handler is total
and still returns the committed stream). -/
theorem C2_stream_commit (m : JSVal) (h : Option (List HistEntry)) (env : StreamEnv)
    (hv : validateMessageText (.str (coerceMessage m)) = none)
    (hm : (runModerationCheck env.hasKey env.modOutcome).flagged = false)
    (hk : env.hasKey = true) :
    (∃ evs, (streamHandler m h env).1 = .streamed evs)
    ∧ (∀ s t, env.upstream = .badStatus s t →
        (streamHandler m h env).1 = .streamed [.errorEvent "Error en streaming desde OpenAI"])
    ∧ (env.upstream = .fetchFailed →
        (streamHandler m h env).1
          = .streamed [.errorEvent "Error en el servidor durante el streaming."])
    ∧ (∀ cs, env.upstream = .chunks cs true →
        (streamHandler m h env).1
          = .streamed ((cs.map chunkFrames).flatten
              ++ [.errorEvent "Error en el servidor durante el streaming."])
        ∧ (∀ e ∈ (cs.map chunkFrames).flatten, e.isData = true)
        ∧ ((cs.map chunkFrames).flatten
            ++ [SseEvent.errorEvent "Error en el servidor durante el streaming."]).countP
              SseEvent.isError = 1) := by
  have hc := streamHandler_committed m h env hv hm hk
  refine ⟨⟨streamEvents env.upstream, hc⟩, ?_, ?_, ?_⟩
  · intro s t hu
    rw [hc, hu]
    rfl
  · intro hu
    rw [hc, hu]
    rfl
  · intro cs hu
    refine ⟨by rw [hc, hu]; rfl, fun e he => mem_flatten_chunkFrames_isData he, ?_⟩
    rw [List.countP_append, countP_flatten_chunkFrames_isError, Nat.zero_add]
    rfl

/-- Witness for C2: a stream that forwards one frame and then drops
mid-stream delivers that frame, then exactly one error event. -/
theorem C2_stream_commit_witness :
    (streamHandler (.str "hola") none
      ⟨true, ModOutcome.result false, false, [], none,
        StreamUpstream.chunks ["data: x\n"] true, 3, "S"⟩).1
      = .streamed [.data "x", .errorEvent "Error en el servidor durante el streaming."] :=
  (((C2_stream_commit (.str "hola") none
      ⟨true, ModOutcome.result false, false, [], none,
        StreamUpstream.chunks ["data: x\n"] true, 3, "S"⟩
      (by decide) rfl rfl).2.2.2 ["data: x\n"] rfl).1).trans (by decide)

end Atenea
